import Mathlib

/-! # cu.c : the serial-line relay

A shallow embedding of `src/target_root_app/cu/cu.c`: the escape state
machine driven by `stream_read`, the device-to-terminal path `line_read`,
and the terminal-mode functions `set_termios` / `restore_termios`.

Calls into the outside world (stdio, libevent, `do_command`, `tcsetattr`)
are recorded as a trace of `Effect`s, in program order.  Values returned by
the outside world that the code looks at (`isatty`, the result of
`tcsetattr`) or discards (the result of `fwrite`) are explicit arguments.

`do_command` and `cu_err` are declared in `cu.h` and defined outside cu.c: a
call to one of them is an entry of the trace, and what happens inside it is not
described here.  `do_command` is taken to return, and `stream_read` assigns
`last_state` itself right after the call.
-/

namespace Cu

/-! ## Data model -/

/-- One `char` of an evbuffer, by its byte value.  The code only compares a
`char` with `'\r'` (13) and `'~'` (126), so the signedness of `char` plays no
part. -/
abbrev Byte := Fin 256

/-- The character constant `'\r'`. -/
def CR : Byte := 13

/-- The character constant `'\n'`. -/
def LF : Byte := 10

/-- The character constant `'~'`. -/
def TILDE : Byte := 126

/-- The anonymous enum of `last_state` (cu.c lines 50-54). -/
inductive State
  | STATE_NONE
  | STATE_NEWLINE
  | STATE_TILDE
  deriving DecidableEq

/-- The initialiser of the global: `last_state = STATE_NEWLINE`. -/
def initial_state : State := State.STATE_NEWLINE

/-- Calls that leave the functions of cu.c, in the order they are made. -/
inductive Effect
  /-- `printf` on stdout, with the bytes it produces. -/
  | printf (bytes : List Byte)
  /-- `fflush(stdout)`. -/
  | fflush
  /-- `do_command(c)`, the external command handler. -/
  | do_command (c : Byte)
  /-- `bufferevent_write(line_ev, bytes, len)`: bytes queued for the device. -/
  | line_write (bytes : List Byte)
  /-- `bufferevent_write(output_ev, bytes, len)`: bytes queued for stdout. -/
  | output_write (bytes : List Byte)
  /-- `fwrite(bytes, 1, len, record_file)`. -/
  | fwrite (bytes : List Byte)
  /-- `event_loopexit(NULL)`. -/
  | event_loopexit
  /-- `cu_err(eval, msg)`: the fatal diagnostic of cu, defined outside cu.c. -/
  | cu_err (eval : Nat) (msg : String)
  deriving DecidableEq

/-- Which exit of the loop body of `stream_read` a byte takes: it reaches the
writes at the bottom of the body (`Forward`), leaves through the `continue` of
`case STATE_NEWLINE` (`EscapeTrigger`), or through the `continue` of
`case STATE_TILDE` after `do_command` (`CommandByte`). -/
inductive Class
  | Forward
  | EscapeTrigger
  | CommandByte (b : Byte)
  deriving DecidableEq

/-! ## stream_read -/

/-- What one iteration of the `for` loop of `stream_read` does. -/
structure Step where
  last_state : State
  cls : Class
  effects : List Effect
  deriving DecidableEq

/-- The bottom of the loop body (cu.c lines 278-286): optional local echo, then
the byte is written to the line, and `"\n"` after a `'\r'`. -/
def forward (locally_echo : Bool) (c : Byte) : List Effect :=
  (if locally_echo = true then
      [Effect.printf [c]] ++ (if c = CR then [Effect.printf [LF]] else []) ++ [Effect.fflush]
    else []) ++
  [Effect.line_write [c]] ++ (if c = CR then [Effect.line_write [LF]] else [])

/-- The body of the `for` loop of `stream_read` (cu.c lines 256-286) for the
byte `c = *ptr`, with `state_change = isatty(STDIN_FILENO)`. -/
def loop_body (state_change locally_echo : Bool) (last_state : State) (c : Byte) : Step :=
  match last_state with
  | State.STATE_NONE =>
      { last_state := if state_change = true ∧ c = CR then State.STATE_NEWLINE else State.STATE_NONE
        cls := Class.Forward
        effects := forward locally_echo c }
  | State.STATE_NEWLINE =>
      if state_change = true ∧ c = TILDE then
        { last_state := State.STATE_TILDE
          cls := Class.EscapeTrigger
          effects := [Effect.printf [TILDE], Effect.fflush] }
      else
        { last_state := if c ≠ CR then State.STATE_NONE else State.STATE_NEWLINE
          cls := Class.Forward
          effects := forward locally_echo c }
  | State.STATE_TILDE =>
      { last_state := State.STATE_NEWLINE
        cls := Class.CommandByte c
        effects := [Effect.printf [c, CR, LF], Effect.fflush, Effect.do_command c] }

/-- The result of running the loop over some bytes. -/
structure Run where
  last_state : State
  classes : List Class
  effects : List Effect
  deriving DecidableEq

/-- The `for` loop of `stream_read` over the bytes `new_data[0 .. new_size)`. -/
def stream_loop (state_change locally_echo : Bool) : State → List Byte → Run
  | st, [] => { last_state := st, classes := [], effects := [] }
  | st, c :: rest =>
      let s := loop_body state_change locally_echo st c
      let r := stream_loop state_change locally_echo s.last_state rest
      { last_state := r.last_state
        classes := s.cls :: r.classes
        effects := s.effects ++ r.effects }

/-- The result of one call of `stream_read`: the run, and what is left in
`input_ev->input`. -/
structure ReadResult where
  run : Run
  input : List Byte
  deriving DecidableEq

/-- The callback `stream_read` (cu.c lines 242-292): `input` is the content of
`input_ev->input`, `isatty` the value of `isatty(STDIN_FILENO)`. -/
def stream_read (isatty locally_echo : Bool) (last_state : State) (input : List Byte) :
    ReadResult :=
  let new_data := input
  let new_size := input.length
  if new_size = 0 then
    { run := { last_state := last_state, classes := [], effects := [] }, input := input }
  else
    { run := stream_loop isatty locally_echo last_state new_data
      input := input.drop new_size }

/-- Successive calls of `stream_read`, one per buffer that libevent hands over;
`last_state` is a global and is carried from one call to the next. -/
def session (isatty locally_echo : Bool) : State → List (List Byte) → Run
  | st, [] => { last_state := st, classes := [], effects := [] }
  | st, buf :: rest =>
      let r := (stream_read isatty locally_echo st buf).run
      let q := session isatty locally_echo r.last_state rest
      { last_state := q.last_state
        classes := r.classes ++ q.classes
        effects := r.effects ++ q.effects }

/-! ## Observations on a trace -/

/-- The bytes queued for the device by a trace. -/
def deviceBytes (es : List Effect) : List Byte :=
  es.flatMap fun e => match e with
    | Effect.line_write bs => bs
    | _ => []

/-- The bytes printed on stdout by `printf` in a trace. -/
def stdoutBytes (es : List Effect) : List Byte :=
  es.flatMap fun e => match e with
    | Effect.printf bs => bs
    | _ => []

/-- The bytes queued for stdout through `output_ev` in a trace. -/
def outputBytes (es : List Effect) : List Byte :=
  es.flatMap fun e => match e with
    | Effect.output_write bs => bs
    | _ => []

/-- The selectors passed to `do_command` in a trace. -/
def commands (es : List Effect) : List Byte :=
  es.flatMap fun e => match e with
    | Effect.do_command c => [c]
    | _ => []

/-- The input bytes whose class is `Forward`, in input order. -/
def forwarded : List Byte → List Class → List Byte
  | b :: bs, Class.Forward :: cs => b :: forwarded bs cs
  | _ :: bs, _ :: cs => forwarded bs cs
  | _, _ => []

/-- The outbound translation of one byte: `'\r'` becomes `'\r' '\n'`. -/
def crlf (b : Byte) : List Byte := if b = CR then [CR, LF] else [b]

/-! ## line_read -/

/-- The result of one call of `line_read`: what is left in `line_ev->input`, and
the calls made. -/
structure LineResult where
  input : List Byte
  effects : List Effect
  deriving DecidableEq

/-- The callback `line_read` (cu.c lines 303-321): `input` is the content of
`line_ev->input`, `record_file` says whether the global `record_file` is
non-NULL, and `fwrite_ret` is the item count `fwrite` returns, which the code
discards. -/
def line_read (record_file : Bool) (fwrite_ret : Nat) (input : List Byte) : LineResult :=
  let new_data := input
  let new_size := input.length
  if new_size = 0 then
    { input := input, effects := [] }
  else
    let _ := fwrite_ret
    { input := input.drop new_size
      effects :=
        (if record_file = true then [Effect.fwrite new_data] else []) ++
        [Effect.output_write new_data] }

/-- The callback `line_error` (cu.c lines 323-330). -/
def line_error : List Effect := [Effect.event_loopexit]

/-- The callback `stream_error` (cu.c lines 294-301). -/
def stream_error : List Effect := [Effect.event_loopexit]

/-- The bytes handed to the record file in a trace. -/
def recordBytes (es : List Effect) : List Byte :=
  es.flatMap fun e => match e with
    | Effect.fwrite bs => bs
    | _ => []

/-- An effect that tells the user something went wrong: a `cu_err`, or any
message printed with `printf`. -/
def Effect.isDiagnostic : Effect → Bool
  | Effect.cu_err _ _ => true
  | Effect.printf _ => true
  | _ => false

/-- An effect that ends the session: leaving the event loop, or `cu_err`
(which exits). -/
def Effect.endsSession : Effect → Bool
  | Effect.event_loopexit => true
  | Effect.cu_err _ _ => true
  | _ => false

/-! ## Terminal modes -/

/-- The fields of `struct termios` that cu.c touches. -/
structure Termios where
  c_iflag : Nat
  c_oflag : Nat
  c_cflag : Nat
  c_lflag : Nat
  c_cc : List Nat
  deriving DecidableEq

/-- The constants of `<termios.h>` and `<unistd.h>` used by `set_termios`; their
values belong to the platform.  `VDSUSP` is `none` where it is not defined. -/
structure Platform where
  ICANON : Nat
  IEXTEN : Nat
  ECHO : Nat
  INPCK : Nat
  ICRNL : Nat
  IXON : Nat
  OPOST : Nat
  VMIN : Nat
  VTIME : Nat
  VDISCARD : Nat
  VDSUSP : Option Nat
  VINTR : Nat
  VLNEXT : Nat
  VQUIT : Nat
  VSUSP : Nat
  POSIX_VDISABLE : Nat

/-- The terminal on stdin as cu.c sees it: whether `isatty(STDIN_FILENO)` holds,
the mode the terminal is in, and the global `saved_tio`. -/
structure Terminal where
  isatty : Bool
  tio : Termios
  saved_tio : Termios
  deriving DecidableEq

/-- The statement `flags &= ~mask` on a 32-bit `tcflag_t`. -/
def clear_bits (flags mask : Nat) : Nat :=
  flags &&& ((2 ^ 32 - 1) ^^^ (mask % 2 ^ 32))

/-- The call `tcsetattr(STDIN_FILENO, TCSAFLUSH, &new)`: when the system accepts
it (`ok`), the terminal is in mode `new` and 0 is returned; otherwise the mode
is unchanged and -1 is returned. -/
def tcsetattr (ok : Bool) (t : Terminal) (new : Termios) : Terminal × Int :=
  if ok = true then ({ t with tio := new }, 0) else (t, -1)

/-- The function `set_termios` (cu.c lines 189-214); `tcsetattr_ok` is the
outcome of its `tcsetattr` call. -/
def set_termios (P : Platform) (tcsetattr_ok : Bool) (t : Terminal) :
    Terminal × List Effect :=
  if t.isatty = false then (t, [])
  else
    let tio := t.saved_tio
    let tio := { tio with c_lflag := clear_bits tio.c_lflag (P.ICANON ||| P.IEXTEN ||| P.ECHO) }
    let tio := { tio with c_iflag := clear_bits tio.c_iflag (P.INPCK ||| P.ICRNL) }
    let tio := { tio with c_iflag := clear_bits tio.c_iflag P.IXON }
    let tio := { tio with c_oflag := clear_bits tio.c_oflag P.OPOST }
    let tio := { tio with c_cc := tio.c_cc.set P.VMIN 1 }
    let tio := { tio with c_cc := tio.c_cc.set P.VTIME 0 }
    let tio := { tio with c_cc := tio.c_cc.set P.VDISCARD P.POSIX_VDISABLE }
    let tio := match P.VDSUSP with
      | some v => { tio with c_cc := tio.c_cc.set v P.POSIX_VDISABLE }
      | none => tio
    let tio := { tio with c_cc := tio.c_cc.set P.VINTR P.POSIX_VDISABLE }
    let tio := { tio with c_cc := tio.c_cc.set P.VLNEXT P.POSIX_VDISABLE }
    let tio := { tio with c_cc := tio.c_cc.set P.VQUIT P.POSIX_VDISABLE }
    let tio := { tio with c_cc := tio.c_cc.set P.VSUSP P.POSIX_VDISABLE }
    let r := tcsetattr tcsetattr_ok t tio
    if r.2 ≠ 0 then (r.1, [Effect.cu_err 1 "tcsetattr"]) else (r.1, [])

/-- The function `restore_termios` (cu.c lines 216-221); `tcsetattr_ok` is the
outcome of its `tcsetattr` call, whose result the code does not look at. -/
def restore_termios (tcsetattr_ok : Bool) (t : Terminal) : Terminal :=
  if t.isatty = true then (tcsetattr tcsetattr_ok t t.saved_tio).1 else t

/-! ## The transition table of the specification -/

/-- The states of the EscapeStateMachine of the specification. -/
inductive EscapeState
  | Idle
  | AfterNewline
  | AwaitingCommand
  deriving DecidableEq

/-- The correspondence between the enum of cu.c and the names of the
specification. -/
def State.toSpec : State → EscapeState
  | State.STATE_NONE => EscapeState.Idle
  | State.STATE_NEWLINE => EscapeState.AfterNewline
  | State.STATE_TILDE => EscapeState.AwaitingCommand

/-- The transition table of section 4.3 of the specification, row by row: the
class of the byte and the next state. -/
def specTable : EscapeState → Byte → Class × EscapeState
  | EscapeState.Idle, b =>
      if b = CR then (Class.Forward, EscapeState.AfterNewline)
      else (Class.Forward, EscapeState.Idle)
  | EscapeState.AfterNewline, b =>
      if b = TILDE then (Class.EscapeTrigger, EscapeState.AwaitingCommand)
      else if b = CR then (Class.Forward, EscapeState.AfterNewline)
      else (Class.Forward, EscapeState.Idle)
  | EscapeState.AwaitingCommand, b => (Class.CommandByte b, EscapeState.AfterNewline)

/-- The side-effect contract of section 4.3 for a byte of a given class: the
bytes the device receives and the selectors dispatched to the command handler. -/
def specEffects (b : Byte) : Class → List Byte × List Byte
  | Class.Forward => (crlf b, [])
  | Class.EscapeTrigger => ([], [])
  | Class.CommandByte c => ([], [c])

/-! ## Lemmas on traces and on the loop -/

theorem deviceBytes_append (xs ys : List Effect) :
    deviceBytes (xs ++ ys) = deviceBytes xs ++ deviceBytes ys := by
  simp [deviceBytes, List.flatMap_append]

theorem stdoutBytes_append (xs ys : List Effect) :
    stdoutBytes (xs ++ ys) = stdoutBytes xs ++ stdoutBytes ys := by
  simp [stdoutBytes, List.flatMap_append]

theorem commands_append (xs ys : List Effect) :
    commands (xs ++ ys) = commands xs ++ commands ys := by
  simp [commands, List.flatMap_append]

theorem deviceBytes_forward (e : Bool) (c : Byte) : deviceBytes (forward e c) = crlf c := by
  cases e <;> by_cases h : c = CR <;> simp [forward, deviceBytes, crlf, h, List.flatMap]

theorem stdoutBytes_forward (e : Bool) (c : Byte) :
    stdoutBytes (forward e c) = if e = true then crlf c else [] := by
  cases e <;> by_cases h : c = CR <;> simp [forward, stdoutBytes, crlf, h, List.flatMap]

theorem commands_forward (e : Bool) (c : Byte) : commands (forward e c) = [] := by
  cases e <;> by_cases h : c = CR <;> simp [forward, commands, h, List.flatMap]

/-- A call of `stream_read` is the loop over its buffer (the early return on an
empty buffer does what the loop does on no bytes). -/
theorem stream_read_run (t e : Bool) (st : State) (input : List Byte) :
    (stream_read t e st input).run = stream_loop t e st input := by
  cases input with
  | nil => simp [stream_read, stream_loop]
  | cons b bs => simp [stream_read]

/-- The loop over `xs ++ ys` is the loop over `xs` followed by the loop over `ys`
from the state the first one leaves. -/
theorem stream_loop_append (t e : Bool) (st : State) (xs ys : List Byte) :
    stream_loop t e st (xs ++ ys) =
      { last_state := (stream_loop t e (stream_loop t e st xs).last_state ys).last_state
        classes := (stream_loop t e st xs).classes ++
          (stream_loop t e (stream_loop t e st xs).last_state ys).classes
        effects := (stream_loop t e st xs).effects ++
          (stream_loop t e (stream_loop t e st xs).last_state ys).effects } := by
  induction xs generalizing st with
  | nil => simp [stream_loop]
  | cons b bs ih => simp [stream_loop, ih]

/-- Splitting the input into buffers does not matter: a session is the loop over
the concatenation of its buffers. -/
theorem session_eq_stream_loop (t e : Bool) (st : State) (bufs : List (List Byte)) :
    session t e st bufs = stream_loop t e st bufs.flatten := by
  induction bufs generalizing st with
  | nil => simp [session, stream_loop]
  | cons buf rest ih =>
      simp only [session, List.flatten_cons, stream_read_run, ih]
      rw [stream_loop_append]

theorem stream_loop_classes_length (t e : Bool) (st : State) (input : List Byte) :
    (stream_loop t e st input).classes.length = input.length := by
  induction input generalizing st with
  | nil => simp [stream_loop]
  | cons b bs ih => simp [stream_loop, ih]

/-- On a terminal, the loop body never forwards after an escape, and its device
bytes and commands are those the class of the byte calls for. -/
theorem loop_body_effects (t e : Bool) (st : State) (b : Byte) :
    (deviceBytes (loop_body t e st b).effects, commands (loop_body t e st b).effects) =
      specEffects b (loop_body t e st b).cls := by
  cases st
  · simp [loop_body, specEffects, deviceBytes_forward, commands_forward]
  · by_cases h : t = true ∧ b = TILDE
    · simp [loop_body, h, specEffects, deviceBytes, commands, List.flatMap]
    · simp [loop_body, h, specEffects, deviceBytes_forward, commands_forward]
  · simp [loop_body, specEffects, deviceBytes, commands, List.flatMap]

/-- The device bytes of a run are the forwarded bytes, each `'\r'` followed by
`'\n'`. -/
theorem stream_loop_deviceBytes (t e : Bool) (st : State) (input : List Byte) :
    deviceBytes (stream_loop t e st input).effects =
      (forwarded input (stream_loop t e st input).classes).flatMap crlf := by
  induction input generalizing st with
  | nil => simp [stream_loop, deviceBytes, forwarded]
  | cons b bs ih =>
      have h := loop_body_effects t e st b
      simp only [stream_loop, deviceBytes_append, ih]
      generalize loop_body t e st b = s at h ⊢
      obtain ⟨st2, cls, eff⟩ := s
      cases cls <;> simp_all [specEffects, forwarded]

/-- In the outbound translation of any bytes, a `'\r'` is always followed by a
`'\n'`. -/
theorem crlf_followed (F : List Byte) (i : Nat) :
    (F.flatMap crlf)[i]? = some CR → (F.flatMap crlf)[i + 1]? = some LF := by
  induction F generalizing i with
  | nil => simp
  | cons b bs ih =>
      by_cases hb : b = CR
      · subst hb
        match i with
        | 0 => simp [crlf]
        | 1 => simp [crlf, CR, LF]
        | k + 2 =>
            intro h
            have h2 : (List.flatMap bs crlf)[k]? = some CR := by simpa [crlf] using h
            simpa [crlf] using ih k h2
      · match i with
        | 0 => simp [crlf, hb]
        | k + 1 =>
            intro h
            have h2 : (List.flatMap bs crlf)[k]? = some CR := by simpa [crlf, hb] using h
            simpa [crlf, hb] using ih k h2

/-- A byte of class `Forward` runs the bottom of the loop body and nothing else. -/
theorem loop_body_forward_effects (t e : Bool) (st : State) (b : Byte)
    (h : (loop_body t e st b).cls = Class.Forward) :
    (loop_body t e st b).effects = forward e b := by
  cases st
  · simp [loop_body]
  · by_cases h2 : t = true ∧ b = TILDE
    · simp [loop_body, h2] at h
    · simp [loop_body, h2]
  · simp [loop_body] at h

/-- When every byte of a run is forwarded, nothing is dispatched, the device
receives the whole input in its outbound translation, and stdout receives the
same bytes when echo is on and nothing when it is off. -/
theorem stream_loop_all_forward (t e : Bool) (st : State) (input : List Byte)
    (h : ∀ c ∈ (stream_loop t e st input).classes, c = Class.Forward) :
    commands (stream_loop t e st input).effects = [] ∧
    deviceBytes (stream_loop t e st input).effects = input.flatMap crlf ∧
    stdoutBytes (stream_loop t e st input).effects
      = if e = true then input.flatMap crlf else [] := by
  induction input generalizing st with
  | nil => simp [stream_loop, commands, deviceBytes, stdoutBytes]
  | cons b bs ih =>
      simp only [stream_loop, List.mem_cons, forall_eq_or_imp] at h
      obtain ⟨hb, hrest⟩ := h
      obtain ⟨i1, i2, i3⟩ := ih _ hrest
      simp only [stream_loop, commands_append, deviceBytes_append, stdoutBytes_append,
        i1, i2, i3, loop_body_forward_effects t e st b hb, commands_forward,
        deviceBytes_forward, stdoutBytes_forward, List.flatMap_cons]
      cases e <;> simp

/-- Away from `STATE_TILDE`, input that does not start an escape at its first
byte and has no `'\r' '~'` inside is forwarded whole. -/
theorem stream_loop_no_escape (t e : Bool) (st : State) (input : List Byte)
    (hst : st ≠ State.STATE_TILDE)
    (hhead : st = State.STATE_NEWLINE → t = true → input.head? ≠ some TILDE)
    (hno : t = true → ¬ [CR, TILDE] <:+: input) :
    ∀ c ∈ (stream_loop t e st input).classes, c = Class.Forward := by
  induction input generalizing st with
  | nil => simp [stream_loop]
  | cons b bs ih =>
      have hno2 : t = true → ¬ [CR, TILDE] <:+: bs := by
        intro ht hin
        obtain ⟨u, v, huv⟩ := hin
        exact hno ht ⟨b :: u, v, by simp [← huv]⟩
      have hcr : t = true → b = CR → bs.head? ≠ some TILDE := by
        intro ht hb hhd
        cases bs with
        | nil => simp at hhd
        | cons c cs =>
            simp at hhd
            exact hno ht ⟨[], cs, by simp [hb, hhd]⟩
      have hb : ¬ (st = State.STATE_NEWLINE ∧ t = true ∧ b = TILDE) := by
        rintro ⟨h1, h2, h3⟩
        exact hhead h1 h2 (by simp [h3])
      simp only [stream_loop, List.mem_cons, forall_eq_or_imp]
      cases st with
      | STATE_TILDE => exact absurd rfl hst
      | STATE_NONE =>
          refine ⟨by simp [loop_body], ?_⟩
          apply ih _ _ _ hno2
          · simp only [loop_body]; split <;> simp
          · intro hs ht
            simp only [loop_body] at hs
            split at hs
            · rename_i hc; exact hcr ht hc.2
            · simp at hs
      | STATE_NEWLINE =>
          have hb2 : ¬ (t = true ∧ b = TILDE) := fun hc => hb ⟨rfl, hc.1, hc.2⟩
          refine ⟨by simp [loop_body, hb2], ?_⟩
          apply ih _ _ _ hno2
          · simp only [loop_body, hb2, if_false]; split <;> simp
          · intro hs ht
            simp only [loop_body, hb2, if_false] at hs
            split at hs
            · simp at hs
            · rename_i hc; exact hcr ht (not_not.mp hc)

/-- On a terminal, a byte is an escape trigger exactly when it is `'~'` read in
`STATE_NEWLINE`. -/
theorem loop_body_trigger_iff (e : Bool) (st : State) (b : Byte) :
    (loop_body true e st b).cls = Class.EscapeTrigger ↔
      st = State.STATE_NEWLINE ∧ b = TILDE := by
  cases st
  · simp [loop_body]
  · by_cases h : b = TILDE <;> simp [loop_body, h]
  · simp [loop_body]

/-- On a terminal, the loop body leaves `STATE_NEWLINE` behind exactly when it
forwarded a `'\r'` or dispatched a command. -/
theorem loop_body_newline_iff (e : Bool) (st : State) (b : Byte) :
    (loop_body true e st b).last_state = State.STATE_NEWLINE ↔
      ((loop_body true e st b).cls = Class.Forward ∧ b = CR) ∨
      ∃ c, (loop_body true e st b).cls = Class.CommandByte c := by
  cases st
  · by_cases h : b = CR <;> simp [loop_body, h]
  · by_cases h : b = TILDE
    · simp [loop_body, h]
    · have hne : CR ≠ TILDE := by decide
      by_cases h2 : b = CR
      · subst h2; simp [loop_body, hne]
      · simp [loop_body, h, h2]
  · simp [loop_body]

/-- The characterisation of escape triggers in a run from any state. -/
theorem stream_loop_trigger_iff (e : Bool) (st : State) (input : List Byte) (i : Nat) :
    (stream_loop true e st input).classes[i]? = some Class.EscapeTrigger ↔
      input[i]? = some TILDE ∧
      ((i = 0 ∧ st = State.STATE_NEWLINE) ∨
        (0 < i ∧
          (((stream_loop true e st input).classes[i - 1]? = some Class.Forward ∧
              input[i - 1]? = some CR) ∨
            ∃ c, (stream_loop true e st input).classes[i - 1]? = some (Class.CommandByte c)))) := by
  induction input generalizing st i with
  | nil => simp [stream_loop]
  | cons b bs ih =>
      match i with
      | 0 =>
          simp only [stream_loop, List.getElem?_cons_zero, Option.some.injEq,
            loop_body_trigger_iff]
          simp [and_comm]
      | 1 =>
          have h := ih (loop_body true e st b).last_state 0
          simp only [stream_loop, List.getElem?_cons_succ, List.getElem?_cons_zero,
            Option.some.injEq, Nat.sub_self] at h ⊢
          rw [h, loop_body_newline_iff]
          simp
      | k + 2 =>
          have h := ih (loop_body true e st b).last_state (k + 1)
          simp only [stream_loop, List.getElem?_cons_succ, Nat.add_sub_cancel] at h ⊢
          rw [h]
          simp

/-! ## The claims -/

/-- C9: on an interactive terminal the loop body of `stream_read` agrees with the
transition table of the specification for every state and every byte: the class
of the byte and the next state are those of the table, a forwarded byte reaches
the device (with `'\n'` after `'\r'`), an escape trigger and a command byte do
not, and a command byte `b` is dispatched as `do_command(b)`. -/
theorem loop_body_refines_specTable (locally_echo : Bool) (st : State) (b : Byte) :
    ((loop_body true locally_echo st b).cls, (loop_body true locally_echo st b).last_state.toSpec)
        = specTable st.toSpec b ∧
    (deviceBytes (loop_body true locally_echo st b).effects,
      commands (loop_body true locally_echo st b).effects)
        = specEffects b (specTable st.toSpec b).1 := by
  have key : ((loop_body true locally_echo st b).cls,
      (loop_body true locally_echo st b).last_state.toSpec) = specTable st.toSpec b := by
    cases st
    · by_cases h : b = CR <;> simp [loop_body, specTable, State.toSpec, h]
    · have hne : CR ≠ TILDE := by decide
      by_cases h : b = TILDE
      · simp [loop_body, specTable, State.toSpec, h]
      · by_cases h2 : b = CR
        · subst h2; simp [loop_body, specTable, State.toSpec, hne]
        · simp [loop_body, specTable, State.toSpec, h, h2]
    · simp [loop_body, specTable, State.toSpec]
  refine ⟨key, ?_⟩
  rw [← key]
  exact loop_body_effects true locally_echo st b

/-- C2: on an interactive terminal, from `STATE_NONE` or `STATE_NEWLINE`, the
input `CR '~' x` (in one buffer or split over several) is classified Forward,
EscapeTrigger, CommandByte x; `do_command` is called exactly once, with `x`; the
device receives only `CR LF`; and the state afterwards is `STATE_NEWLINE`. -/
theorem cr_tilde_command (locally_echo : Bool) (st : State) (x : Byte)
    (bufs : List (List Byte))
    (hst : st = State.STATE_NONE ∨ st = State.STATE_NEWLINE)
    (hbufs : bufs.flatten = [CR, TILDE, x]) :
    (session true locally_echo st bufs).classes
        = [Class.Forward, Class.EscapeTrigger, Class.CommandByte x] ∧
    commands (session true locally_echo st bufs).effects = [x] ∧
    deviceBytes (session true locally_echo st bufs).effects = [CR, LF] ∧
    (session true locally_echo st bufs).last_state = State.STATE_NEWLINE := by
  rw [session_eq_stream_loop, hbufs]
  have h1 : CR ≠ TILDE := by decide
  rcases hst with h | h <;> subst h <;>
    simp [stream_loop, loop_body, h1, commands_append, deviceBytes_append,
      commands_forward, deviceBytes_forward, crlf] <;>
    simp [commands, deviceBytes, List.flatMap]

/-- Witness for C2: `CR` in one buffer, `'~' 'q'` in the next, from
`STATE_NONE`. -/
theorem cr_tilde_command_witness :
    (session true false State.STATE_NONE [[CR], [TILDE, 113]]).classes
        = [Class.Forward, Class.EscapeTrigger, Class.CommandByte 113] ∧
    commands (session true false State.STATE_NONE [[CR], [TILDE, 113]]).effects = [113] ∧
    deviceBytes (session true false State.STATE_NONE [[CR], [TILDE, 113]]).effects = [CR, LF] ∧
    (session true false State.STATE_NONE [[CR], [TILDE, 113]]).last_state
        = State.STATE_NEWLINE :=
  cr_tilde_command false State.STATE_NONE 113 [[CR], [TILDE, 113]] (Or.inl rfl) (by decide)

/-- C3: for every buffer, every starting state, on a terminal or not and with
echo on or off, the bytes `stream_read` writes to the device are the
Forward-classified input bytes in input order, each `'\r'` replaced by
`'\r' '\n'` and every other byte unchanged; so every `'\r'` written to the device
is immediately followed by `'\n'`; and from the start of a session the input
`'h' 'i' CR` gives the device bytes `'h' 'i' CR LF`. -/
theorem device_receives_forwarded_crlf (isatty locally_echo : Bool) (st : State)
    (input : List Byte) (i : Nat) :
    deviceBytes (stream_read isatty locally_echo st input).run.effects
        = (forwarded input (stream_read isatty locally_echo st input).run.classes).flatMap crlf ∧
    ((deviceBytes (stream_read isatty locally_echo st input).run.effects)[i]? = some CR →
      (deviceBytes (stream_read isatty locally_echo st input).run.effects)[i + 1]? = some LF) ∧
    deviceBytes (stream_read isatty locally_echo initial_state [104, 105, CR]).run.effects
        = [104, 105, CR, LF] := by
  refine ⟨?_, ?_, ?_⟩
  · rw [stream_read_run]; exact stream_loop_deviceBytes _ _ _ _
  · rw [stream_read_run, stream_loop_deviceBytes]; exact crlf_followed _ i
  · rw [stream_read_run, stream_loop_deviceBytes]
    cases isatty <;> simp [stream_loop, loop_body, initial_state, forwarded, crlf, CR, TILDE]

/-- C1 (as stated, refuted): at the start of a session on a terminal the input
`'~' 'q'`, which contains no `CR '~'`, is not forwarded: `'~'` is an escape
trigger, `do_command('q')` is called, and the device receives nothing. -/
theorem tilde_at_session_start_escapes :
    ¬ [CR, TILDE] <:+: [TILDE, (113 : Byte)] ∧
    (stream_read true false initial_state [TILDE, 113]).run.classes
        = [Class.EscapeTrigger, Class.CommandByte 113] ∧
    commands (stream_read true false initial_state [TILDE, 113]).run.effects = [113] ∧
    deviceBytes (stream_read true false initial_state [TILDE, 113]).run.effects = [] := by
  decide

/-- C1 (amended): on an interactive terminal, from the initial state of the
session, input (in any number of buffers) that does not begin with `'~'` and
does not contain the adjacent bytes `CR '~'` is forwarded whole: every byte has
class Forward, the device receives every byte (a `'\n'` after each `'\r'`), and
`do_command` is never called. -/
theorem no_escape_without_cr_tilde (locally_echo : Bool) (bufs : List (List Byte))
    (hfirst : bufs.flatten.head? ≠ some TILDE)
    (hno : ¬ [CR, TILDE] <:+: bufs.flatten) :
    (∀ c ∈ (session true locally_echo initial_state bufs).classes, c = Class.Forward) ∧
    deviceBytes (session true locally_echo initial_state bufs).effects
        = bufs.flatten.flatMap crlf ∧
    commands (session true locally_echo initial_state bufs).effects = [] := by
  rw [session_eq_stream_loop]
  have h := stream_loop_no_escape true locally_echo initial_state bufs.flatten
    (by simp [initial_state]) (fun _ _ => hfirst) (fun _ => hno)
  obtain ⟨h1, h2, _⟩ := stream_loop_all_forward true locally_echo initial_state bufs.flatten h
  exact ⟨h, h2, h1⟩

/-- Witness for C1 (amended): the input `'a' '~'`, then `CR 'b' '~'`. -/
theorem no_escape_without_cr_tilde_witness :
    (∀ c ∈ (session true true initial_state [[97, TILDE], [CR, 98, TILDE]]).classes,
      c = Class.Forward) ∧
    deviceBytes (session true true initial_state [[97, TILDE], [CR, 98, TILDE]]).effects
        = ([[97, TILDE], [CR, 98, TILDE]] : List (List Byte)).flatten.flatMap crlf ∧
    commands (session true true initial_state [[97, TILDE], [CR, 98, TILDE]]).effects = [] :=
  no_escape_without_cr_tilde true [[97, TILDE], [CR, 98, TILDE]] (by decide) (by decide)

/-- C4: when stdin is not a terminal, from the initial state of the session and
for every sequence of buffers, every byte has class Forward (none is an escape
trigger or a command byte), the device receives every byte (a `'\n'` after each
`'\r'`), and `do_command` is never called. -/
theorem not_a_terminal_forwards_all (locally_echo : Bool) (bufs : List (List Byte)) :
    (session false locally_echo initial_state bufs).classes
        = List.replicate bufs.flatten.length Class.Forward ∧
    deviceBytes (session false locally_echo initial_state bufs).effects
        = bufs.flatten.flatMap crlf ∧
    commands (session false locally_echo initial_state bufs).effects = [] := by
  rw [session_eq_stream_loop]
  have h := stream_loop_no_escape false locally_echo initial_state bufs.flatten
    (by simp [initial_state]) (by simp) (by simp)
  obtain ⟨h1, h2, _⟩ := stream_loop_all_forward false locally_echo initial_state bufs.flatten h
  refine ⟨?_, h2, h1⟩
  rw [List.eq_replicate_iff]
  exact ⟨stream_loop_classes_length _ _ _ _, h⟩

/-- C5: for a buffer in which every byte has class Forward, the bytes
`stream_read` prints on stdout are, with local echo on, exactly the bytes it
writes to the device, namely the input with a `'\n'` after each `'\r'`, and,
with local echo off, none. -/
theorem echo_mirrors_device (isatty locally_echo : Bool) (st : State) (input : List Byte)
    (h : ∀ c ∈ (stream_read isatty locally_echo st input).run.classes, c = Class.Forward) :
    stdoutBytes (stream_read isatty locally_echo st input).run.effects
        = (if locally_echo = true then
            deviceBytes (stream_read isatty locally_echo st input).run.effects
          else []) ∧
    deviceBytes (stream_read isatty locally_echo st input).run.effects
        = input.flatMap crlf := by
  rw [stream_read_run] at h ⊢
  obtain ⟨_, h2, h3⟩ := stream_loop_all_forward isatty locally_echo st input h
  rw [h2, h3]
  exact ⟨rfl, rfl⟩

/-- Witness for C5: `'h' 'i' CR` with echo on, on a terminal, from the initial
state. -/
theorem echo_mirrors_device_witness :
    stdoutBytes (stream_read true true initial_state [104, 105, CR]).run.effects
        = (if true = true then
            deviceBytes (stream_read true true initial_state [104, 105, CR]).run.effects
          else []) ∧
    deviceBytes (stream_read true true initial_state [104, 105, CR]).run.effects
        = ([104, 105, CR] : List Byte).flatMap crlf :=
  echo_mirrors_device true true initial_state [104, 105, CR] (by decide)

/-- C10: on an interactive terminal, from the initial state of the session
(`STATE_NEWLINE`) and however the input is split into buffers, the byte at
position `i` is an escape trigger if and only if it is `'~'` and either it is the
first byte of the session, or the byte before it was a forwarded `'\r'`, or the
byte before it was a command byte; the classes do not depend on the split. -/
theorem escape_trigger_iff (locally_echo : Bool) (bufs : List (List Byte)) (i : Nat) :
    ((session true locally_echo initial_state bufs).classes[i]? = some Class.EscapeTrigger ↔
      bufs.flatten[i]? = some TILDE ∧
      (i = 0 ∨
        (0 < i ∧
          (((session true locally_echo initial_state bufs).classes[i - 1]? = some Class.Forward ∧
              bufs.flatten[i - 1]? = some CR) ∨
            ∃ c, (session true locally_echo initial_state bufs).classes[i - 1]?
              = some (Class.CommandByte c))))) ∧
    (session true locally_echo initial_state bufs).classes.length = bufs.flatten.length ∧
    session true locally_echo initial_state bufs
      = (stream_read true locally_echo initial_state bufs.flatten).run := by
  rw [session_eq_stream_loop, stream_read_run]
  refine ⟨?_, stream_loop_classes_length _ _ _ _, rfl⟩
  rw [stream_loop_trigger_iff]
  simp [initial_state]

/-- C6: for every non-empty buffer of device bytes, `line_read` queues exactly
those bytes, in order, for stdout and drains the whole buffer; with a record
file attached it first hands the same bytes to `fwrite` and then writes them to
stdout; with none attached the write to stdout is all it does. -/
theorem line_read_verbatim (record_file : Bool) (fwrite_ret : Nat) (input : List Byte)
    (h : input ≠ []) :
    outputBytes (line_read record_file fwrite_ret input).effects = input ∧
    (line_read record_file fwrite_ret input).input = [] ∧
    (line_read true fwrite_ret input).effects
        = [Effect.fwrite input, Effect.output_write input] ∧
    recordBytes (line_read true fwrite_ret input).effects = input ∧
    (line_read false fwrite_ret input).effects = [Effect.output_write input] := by
  have hlen : input.length ≠ 0 := by simpa using h
  cases record_file <;> simp [line_read, hlen, outputBytes, recordBytes, List.flatMap]

/-- Witness for C6: the device bytes `'o' 'k' CR LF` with a record file
attached. -/
theorem line_read_verbatim_witness :
    outputBytes (line_read true 4 [111, 107, CR, LF]).effects = [111, 107, CR, LF] ∧
    (line_read true 4 [111, 107, CR, LF]).input = [] ∧
    (line_read true 4 [111, 107, CR, LF]).effects
        = [Effect.fwrite [111, 107, CR, LF], Effect.output_write [111, 107, CR, LF]] ∧
    recordBytes (line_read true 4 [111, 107, CR, LF]).effects = [111, 107, CR, LF] ∧
    (line_read false 4 [111, 107, CR, LF]).effects
        = [Effect.output_write [111, 107, CR, LF]] :=
  line_read_verbatim true 4 [111, 107, CR, LF] (by decide)

/-- C7 (as stated, refuted): with a record file attached and an `fwrite` that
writes none of the four bytes `'o' 'k' CR LF`, `line_read` surfaces no
diagnostic: its only effects are the `fwrite` call and the write to stdout. -/
theorem sink_failure_surfaces_nothing :
    (0 : Nat) < ([111, 107, CR, LF] : List Byte).length ∧
    (line_read true 0 [111, 107, CR, LF]).effects
        = [Effect.fwrite [111, 107, CR, LF], Effect.output_write [111, 107, CR, LF]] ∧
    ¬ ∃ e ∈ (line_read true 0 [111, 107, CR, LF]).effects, e.isDiagnostic = true := by
  decide

/-- C7 (amended): with a record file attached and an `fwrite` that comes up
short, `line_read` still queues the identical device bytes for stdout and does
nothing that ends the session; the result of `fwrite` is discarded, so the
failure is silent: no diagnostic is surfaced and the call behaves exactly as
with a complete write. -/
theorem sink_failure_is_silent (fwrite_ret : Nat) (input : List Byte)
    (hfail : fwrite_ret < input.length) :
    outputBytes (line_read true fwrite_ret input).effects = input ∧
    (∀ e ∈ (line_read true fwrite_ret input).effects, e.endsSession = false) ∧
    (∀ e ∈ (line_read true fwrite_ret input).effects, e.isDiagnostic = false) ∧
    line_read true fwrite_ret input = line_read true input.length input := by
  have hlen : input.length ≠ 0 := by omega
  simp [line_read, hlen, outputBytes, List.flatMap, Effect.endsSession, Effect.isDiagnostic]

/-- Witness for C7 (amended): `fwrite` writes 1 of the 4 bytes `'o' 'k' CR LF`. -/
theorem sink_failure_is_silent_witness :
    outputBytes (line_read true 1 [111, 107, CR, LF]).effects = [111, 107, CR, LF] ∧
    (∀ e ∈ (line_read true 1 [111, 107, CR, LF]).effects, e.endsSession = false) ∧
    (∀ e ∈ (line_read true 1 [111, 107, CR, LF]).effects, e.isDiagnostic = false) ∧
    line_read true 1 [111, 107, CR, LF]
        = line_read true ([111, 107, CR, LF] : List Byte).length [111, 107, CR, LF] :=
  sink_failure_is_silent 1 [111, 107, CR, LF] (by decide)

/-- C8: over the state (terminal mode, `saved_tio`, is-a-terminal flag),
`restore_termios` is idempotent: twice is the same as once when its `tcsetattr`
takes effect, and also whenever both calls meet the same outcome or the first
one takes effect; it puts the terminal in the mode `saved_tio` when stdin is a
terminal; neither it nor `set_termios` changes `saved_tio`; and it does nothing
when stdin is not a terminal. -/
theorem restore_termios_idempotent (P : Platform) (ok ok2 : Bool) (t : Terminal) :
    restore_termios true (restore_termios true t) = restore_termios true t ∧
    restore_termios ok (restore_termios ok t) = restore_termios ok t ∧
    restore_termios ok2 (restore_termios true t) = restore_termios true t ∧
    (restore_termios true t).tio = (if t.isatty = true then t.saved_tio else t.tio) ∧
    (restore_termios ok t).saved_tio = t.saved_tio ∧
    (set_termios P ok t).1.saved_tio = t.saved_tio ∧
    restore_termios ok { t with isatty := false } = { t with isatty := false } := by
  obtain ⟨tty, mode, saved⟩ := t
  refine ⟨?_, ?_, ?_, ?_, ?_, ?_, ?_⟩
  · cases tty <;> simp [restore_termios, tcsetattr]
  · cases tty <;> cases ok <;> simp [restore_termios, tcsetattr]
  · cases tty <;> cases ok2 <;> simp [restore_termios, tcsetattr]
  · cases tty <;> simp [restore_termios, tcsetattr]
  · cases tty <;> cases ok <;> simp [restore_termios, tcsetattr]
  · cases tty <;> cases ok <;> simp [set_termios, tcsetattr]
  · simp [restore_termios]

end Cu
